import Mathlib

/-!
Verification of the core of the ICD-10 update-file generator:
the `ArgParser` token registry/resolver (ArgParser.cpp) and the fixed-width
record parser (`parse_codes`) and multi-format generator (`gen_go_file`,
`gen_files`) from the main translation unit.

Modelling conventions:
* `std::unordered_map` is modelled as an association list queried with
  `List.lookup`; `unordered_map::insert` (which never overwrites an existing
  key) is `ainsert`; assignment through `operator[]` is `aset`.  Iteration
  order of the maps is never observed by the program, only lookups are.
* `std::unordered_set` is modelled as a `List String` queried with `contains`.
* Byte sequences are modelled as `List Char` (the data is ASCII); `std::string`
  record fields are `String`, built with the same push-back order as the C++.
* Fallible operations return `Option`: `none` models a thrown exception or an
  out-of-bounds (undefined-behaviour) access; `some` is a normal return.
-/

/-! ### Association-list model of the C++ containers -/

/-- `unordered_map::insert`: inserts `(k, v)` only when `k` is absent;
an existing mapping for `k` is kept unchanged (C++ `insert` never overwrites). -/
def ainsert {β : Type} (k : String) (v : β) (m : List (String × β)) : List (String × β) :=
  if (List.lookup k m).isSome then m else (k, v) :: m

/-- Assignment through `unordered_map::operator[]`: after it, `k` maps to `v`
(modelled by shadowing; only `List.lookup` ever reads these lists). -/
def aset {β : Type} (k : String) (v : β) (m : List (String × β)) : List (String × β) :=
  (k, v) :: m

/-- `unordered_set::insert`. -/
def sinsert (k : String) (s : List String) : List String :=
  if s.contains k then s else k :: s

/-! ### ArgParser state (ArgParser.hpp / ArgParser.cpp) -/

/-- The `ArgParser` class state: alias table `keys_trans` (long key → short
key), value slots `values`, found flags `keys_found`, positional list
`key_order`, and the two membership sets. -/
structure ArgParser where
  keys_trans : List (String × String)
  values : List (String × String)
  keys_found : List (String × Bool)
  key_order : List String
  short_keys : List String
  long_keys : List String
deriving DecidableEq, Repr

/-- A parser with every container empty, as produced by constructing from two
empty token lists. -/
def emptyParser : ArgParser := ⟨[], [], [], [], [], []⟩

/-- One iteration of the registration loop in `ArgParser::init` for the pair
`(short_token, long_token)`: every constructor-registered key is value-bearing
and positional. -/
def regStep (st : ArgParser) (p : String × String) : ArgParser :=
  let s := p.1
  let l := p.2
  let st1 :=
    if l ≠ "" ∧ s ≠ "" then
      { st with keys_trans := ainsert l s st.keys_trans, long_keys := sinsert l st.long_keys }
    else st
  if s ≠ "" then
    { st1 with
      values := ainsert s "" st1.values
      keys_found := ainsert s false st1.keys_found
      key_order := st1.key_order ++ [s]
      short_keys := sinsert s st1.short_keys }
  else if l ≠ "" then
    { st1 with
      values := ainsert l "" st1.values
      keys_found := ainsert l false st1.keys_found
      key_order := st1.key_order ++ [l]
      long_keys := sinsert l st1.long_keys }
  else st1

/-- `ArgParser::init`: `none` models the `invalid_argument` thrown when the two
token lists have different lengths; otherwise each `(short, long)` pair is
registered in order. -/
def ArgParser.ofLists (tokens_short tokens_long : List String) : Option ArgParser :=
  if tokens_short.length ≠ tokens_long.length then none
  else some ((tokens_short.zip tokens_long).foldl regStep emptyParser)

/-- The `vector<pair<string, string>>` constructor: splits the pairs and calls
`init`. -/
def ArgParser.ofPairs (tokens : List (String × String)) : Option ArgParser :=
  ArgParser.ofLists (tokens.map Prod.fst) (tokens.map Prod.snd)

/-- The short-tokens-only constructor: synthesizes a same-length list of empty
long tokens. -/
def ArgParser.ofShorts (tokens_short : List String) : Option ArgParser :=
  ArgParser.ofLists tokens_short (List.replicate tokens_short.length "")

/-- `ArgParser::add_token`: returns `false` (and registers nothing) iff both
keys are empty; otherwise registers like `init` does, except that the value
slot is created only when `has_value` and the key is appended to the
positional list only when `has_value && positional`.  All insertions are
`unordered_map/set::insert`, which keep any existing entry. -/
def ArgParser.add_token (st : ArgParser) (short_token long_token : String)
    (has_value positional : Bool) : ArgParser × Bool :=
  if short_token = "" ∧ long_token = "" then (st, false)
  else
    let st1 :=
      if long_token ≠ "" ∧ short_token ≠ "" then
        { st with
          keys_trans := ainsert long_token short_token st.keys_trans
          long_keys := sinsert long_token st.long_keys }
      else st
    if short_token ≠ "" then
      ({ st1 with
          values := if has_value then ainsert short_token "" st1.values else st1.values
          keys_found := ainsert short_token false st1.keys_found
          key_order :=
            if has_value ∧ positional then st1.key_order ++ [short_token] else st1.key_order
          short_keys := sinsert short_token st1.short_keys }, true)
    else
      ({ st1 with
          values := if has_value then ainsert long_token "" st1.values else st1.values
          keys_found := ainsert long_token false st1.keys_found
          key_order :=
            if has_value ∧ positional then st1.key_order ++ [long_token] else st1.key_order
          long_keys := sinsert long_token st1.long_keys }, true)

/-- `ArgParser::found`: translate through the alias table, then read the found
flag, defaulting to `false`. -/
def ArgParser.found (st : ArgParser) (token : String) : Bool :=
  let key :=
    match List.lookup token st.keys_trans with
    | some k => k
    | none => token
  match List.lookup key st.keys_found with
  | some b => b
  | none => false

/-- `ArgParser::get_value`:
`(values.contains(key) && keys_found.at(key)) ? values.at(key) : ""`.
`none` models the `out_of_range` thrown by `keys_found.at` when `key` has a
value slot but no found flag (unreachable for parsers built through the API). -/
def ArgParser.get_value (st : ArgParser) (token : String) : Option String :=
  let key :=
    match List.lookup token st.keys_trans with
    | some k => k
    | none => token
  if (List.lookup key st.values).isSome then
    match List.lookup key st.keys_found with
    | some true => List.lookup key st.values
    | some false => some ""
    | none => none
  else some ""

/-- Single leading and trailing double-quote stripping applied to non-option
arguments in `ArgParser::parse` (lines 128-129): drop one leading byte when it
is `'"'`, then `pop_back` when `ends_with('"')`. -/
def quoteStrip (s : String) : String :=
  let a := if s.data.headD (Char.ofNat 0) = '"' then String.mk (s.data.drop 1) else s
  if a.data.getLastD (Char.ofNat 0) = '"' then String.mk a.data.dropLast else a

/-- Lines 105-115 of `ArgParser::parse`: strip the option prefix (two bytes
after `--` when the remainder is a known long key, else one byte after `-` or
`/` when the remainder is a known short key, else fall back to the literal
token), then translate through the alias table.  `argv[i][1]` on a one-byte
C string reads the NUL terminator, modelled by `headD '\0'`. -/
def resolveKey (st : ArgParser) (s : String) : String :=
  let arg0 :=
    if s.data.headD (Char.ofNat 0) = '-' ∧ (s.data.drop 1).headD (Char.ofNat 0) = '-' then
      if st.long_keys.contains (s.drop 2) then s.drop 2 else s
    else
      if st.short_keys.contains (s.drop 1) then s.drop 1 else s
  match List.lookup arg0 st.keys_trans with
  | some k => k
  | none => arg0

/-- The scan loop of `ArgParser::parse` (lines 103-132) over `argv[1..]`:
option tokens (first byte `-` or `/`) are resolved with `resolveKey` and, when
known, marked found with the following argument consumed as value if one
exists; unknown option tokens are queued verbatim and bare tokens are queued
quote-stripped.  `argv[i][0]` on an empty C string reads the NUL terminator,
modelled by `headD '\0'`. -/
def ArgParser.parseScan : ArgParser → List String → List String → ArgParser × List String
  | st, extras, [] => (st, extras)
  | st, extras, s :: rest =>
    if s.data.headD (Char.ofNat 0) = '-' ∨ s.data.headD (Char.ofNat 0) = '/' then
      if (List.lookup (resolveKey st s) st.keys_found).isSome then
        match rest with
        | [] => ({ st with keys_found := aset (resolveKey st s) true st.keys_found }, extras)
        | v :: rest2 =>
          if (List.lookup (resolveKey st s) st.values).isSome then
            ArgParser.parseScan
              { st with
                keys_found := aset (resolveKey st s) true st.keys_found
                values := aset (resolveKey st s) v st.values }
              extras rest2
          else
            ArgParser.parseScan
              { st with keys_found := aset (resolveKey st s) true st.keys_found }
              extras (v :: rest2)
      else
        ArgParser.parseScan st (extras ++ [s]) rest
    else
      ArgParser.parseScan st (extras ++ [quoteStrip s]) rest

/-- The positional back-fill loop of `ArgParser::parse` (lines 134-142): walk
`key_order` front to back, stopping when the extras queue is empty; each
not-yet-found value-bearing key consumes the oldest extra.  `none` models the
`out_of_range` thrown by `keys_found.at` on a `key_order` entry with no found
flag (unreachable for parsers built through the API). -/
def backfill : List String → List String → List (String × String) → List (String × Bool) →
    Option (List (String × String) × List (String × Bool))
  | _, [], vals, fnd => some (vals, fnd)
  | [], _ :: _, vals, fnd => some (vals, fnd)
  | k :: ks, e :: es, vals, fnd =>
    match List.lookup k fnd with
    | none => none
    | some b =>
      if b = false ∧ (List.lookup k vals).isSome then
        backfill ks es (aset k e vals) (aset k true fnd)
      else
        backfill ks (e :: es) vals fnd

/-- `ArgParser::parse` over an argument vector that includes the program name
at index 0: scan, then back-fill.  The C++ function always returns `true`; the
`Option` only records the (unreachable) `out_of_range` of the back-fill. -/
def ArgParser.parse (st : ArgParser) (args : List String) : Option ArgParser :=
  match st.parseScan [] (args.drop 1) with
  | (st1, extras) =>
    match backfill st1.key_order extras st1.values st1.keys_found with
    | none => none
    | some (v, f) => some { st1 with values := v, keys_found := f }

/-! ### The fixed-width record parser (`parse_codes`) -/

/-- The `ICDCode` struct: raw code, decimal-form code, long description. -/
structure ICDCode where
  code : String
  dec_code : String
  desc : String
deriving DecidableEq, Repr

/-- `const std::string::operator[]`: index `size()` reads the NUL terminator
(defined behaviour since C++11); any larger index is an out-of-bounds read,
modelled as `none`. -/
def getC (data : List Char) (i : Nat) : Option Char :=
  if h : i < data.length then some data[i]
  else if i = data.length then some (Char.ofNat 0)
  else none

/-- The back-to-front worker for `stripLoop`, recursing on the reversed
string: drop leading (originally trailing) spaces; reaching the empty list
means `back()` was called on an empty string. -/
def stripRev : List Char → Option (List Char)
  | [] => none
  | c :: rest => if c = ' ' then stripRev rest else some (c :: rest)

/-- `while (code.desc.back() == ' ') { code.desc.pop_back(); }` (line 777):
strips trailing spaces; calling `back()` on an empty string (empty or
all-space description) is an out-of-bounds access, modelled as `none`. -/
def stripLoop (l : List Char) : Option (List Char) :=
  match stripRev l.reverse with
  | none => none
  | some r => some r.reverse

/-- Outcome of the branch cascade of one `parse_codes` loop iteration
(lines 756-781): how far `i` moved (`di`), the new column, and the updated
flag/field state. -/
structure StepOut where
  di : Nat
  col : Nat
  hipaa : Char
  code : List Char
  dec : List Char
  desc : List Char

/-- The branch cascade of one `parse_codes` loop iteration on the examined
character `ch` (lines 756-781): code columns 6-13 (with the blank-skip jump to
column 13 and the decimal point inserted when column 9 is reached), the flag
read at column 14 followed by the unconditional 62-byte jump, and description
accumulation from column 77 on when the flag is `'1'`. -/
def step1 (ch : Char) (col : Nat) (hipaa : Char) (code dec desc : List Char) : Option StepOut :=
  if 6 ≤ col ∧ col < 14 then
    if ch = ' ' then some ⟨13 - col, 13, hipaa, code, dec, desc⟩
    else some ⟨0, col, hipaa, code ++ [ch], (if col = 9 then dec ++ ['.'] else dec) ++ [ch], desc⟩
  else if col = 14 then
    some ⟨62, 76, ch, code, dec, desc⟩
  else if hipaa = '1' ∧ 77 ≤ col then
    if ch = '\r' ∨ ch = '\n' then
      match stripLoop desc with
      | none => none
      | some d => some ⟨0, col, hipaa, code, dec, d⟩
    else some ⟨0, col, hipaa, code, dec, desc ++ [ch]⟩
  else some ⟨0, col, hipaa, code, dec, desc⟩

/-- The scan loop of `parse_codes` (lines 755-798).  After the branch cascade,
the character at the (possibly moved) index `i + di` is tested for a line
terminator (line 783); at a terminator the CRLF second byte is skipped, the
record is pushed iff the flag is `'1'`, the per-record fields reset (the flag
`hipaa` deliberately is not: the C++ never resets it), and scanning resumes 7
bytes later at column 6.  `fuel` only bounds the recursion: each iteration
advances `i` by at least one, so `data.length + 1` fuel can never run out. -/
def parseLoop (data : List Char) :
    Nat → Nat → Nat → Char → List Char → List Char → List Char → List ICDCode →
      Option (List ICDCode)
  | 0, _, _, _, _, _, _, _ => none
  | fuel + 1, i, col, hipaa, code, dec, desc, acc =>
    if h : i < data.length then
      match step1 data[i] col hipaa code dec desc with
      | none => none
      | some s =>
        match getC data (i + s.di) with
        | none => none
        | some ch2 =>
          if ch2 = '\r' ∨ ch2 = '\n' then
            let skip : Nat :=
              if ch2 = '\r' ∧ getC data (i + s.di + 1) = some '\n' then 1 else 0
            let acc2 :=
              if s.hipaa = '1' then
                ICDCode.mk (String.mk s.code) (String.mk s.dec) (String.mk s.desc) :: acc
              else acc
            parseLoop data fuel (i + s.di + skip + 7) 6 s.hipaa [] [] [] acc2
          else
            parseLoop data fuel (i + s.di + 1) (s.col + 1) s.hipaa s.code s.dec s.desc acc
    else some acc.reverse

/-- `parse_codes` up to (but not including) the final `std::sort`: the records
in file order.  The C++ loop starts at `i = 6`, `col = 6` with a zero flag
byte and empty fields. -/
def parse_codes_raw (data : List Char) : Option (List ICDCode) :=
  parseLoop data (data.length + 1) 6 6 (Char.ofNat 0) [] [] [] []

/-- Lexicographic comparison of byte sequences, exactly
`std::basic_string::operator<` (`lexicographical_compare` on the characters).
Agrees with Lean's `List.lt` on the character lists (proved below). -/
def charsLt : List Char → List Char → Bool
  | _, [] => false
  | [], _ :: _ => true
  | a :: as, b :: bs => if a < b then true else if b < a then false else charsLt as bs

/-- `comp_icdcode` (line 311): `a.code < b.code` on `std::string`, i.e.
lexicographic byte comparison. -/
def comp_icdcode (a b : ICDCode) : Bool :=
  charsLt a.code.data b.code.data

/-- The guarantee the C++ standard gives for
`sort(codes.begin(), codes.end(), comp_icdcode)` (line 805): the result is a
permutation of the input that is sorted with respect to the comparator
(for a strict total order, pairwise `¬ comp later earlier`).  The standard
says nothing about the relative order of equivalent elements (`std::sort` is
not stable), so the tie order is quantified over: any function with this
property is a conforming implementation. -/
def CppSortSpec (f : List ICDCode → List ICDCode) : Prop :=
  ∀ l : List ICDCode, (f l).Perm l ∧ (f l).Pairwise (fun a b => comp_icdcode b a = false)

/-- `parse_codes` with the final `std::sort` abstracted to an arbitrary
conforming implementation `f`. -/
def parse_codes_with (f : List ICDCode → List ICDCode) (data : List Char) :
    Option (List ICDCode) :=
  match parse_codes_raw data with
  | none => none
  | some recs => some (f recs)

/-- The non-strict ordering induced by the comparator: `a` may precede `b`
in a `comp_icdcode`-sorted sequence. -/
def sortRel (a b : ICDCode) : Prop := comp_icdcode b a = false

instance : DecidableRel sortRel :=
  fun a b => inferInstanceAs (Decidable (comp_icdcode b a = false))

/-- One conforming implementation of the `std::sort` call, used to make
`parse_codes` executable. -/
def sortByCode (l : List ICDCode) : List ICDCode :=
  List.insertionSort sortRel l

/-- `parse_codes` (lines 739-806): scan, then sort by `comp_icdcode`. -/
def parse_codes (data : List Char) : Option (List ICDCode) :=
  parse_codes_with sortByCode data

/-! ### The multi-format generator (`gen_go_file`, `gen_files`) -/

/-- The fields of `struct tm` that `gen_go_file` formats.  The program obtains
them from `localtime_s`, so they are in the usual ranges (month `0..11`,
minute `0..59`, hour `0..23`, `tm_year` = years since 1900 with a four-digit
calendar year); the `strftime` buffers in the C++ only fit that range. -/
structure Tm where
  tm_min : Nat
  tm_hour : Nat
  tm_mday : Nat
  tm_mon : Nat
  tm_year : Nat
deriving DecidableEq, Repr

/-- Two-digit zero padding as produced by the `%d`, `%I` and `%M` conversions. -/
def pad2 (n : Nat) : String :=
  if n < 10 then "0" ++ toString n else toString n

/-- The `%b` conversion in the C locale (abbreviated month name, month `0..11`). -/
def monthAbbrev (m : Nat) : String :=
  ["Jan", "Feb", "Mar", "Apr", "May", "Jun",
    "Jul", "Aug", "Sep", "Oct", "Nov", "Dec"].getD m ""

/-- `strftime(part1, 15, "%d %b %Y   ", timestamp)` (line 818): exactly 14
characters for an in-range timestamp. -/
def tmPart1 (t : Tm) : String :=
  pad2 t.tm_mday ++ " " ++ monthAbbrev t.tm_mon ++ " " ++ toString (1900 + t.tm_year) ++ "   "

/-- `strftime(part2, 3, "%I", timestamp)` (line 819) followed by the C++ drop
of a leading `'0'` (line 823): the 12-hour clock hour. -/
def tmPart2 (t : Tm) : String :=
  let h12 := if t.tm_hour % 12 = 0 then 12 else t.tm_hour % 12
  let p := pad2 h12
  if p.data.headD (Char.ofNat 0) = '0' then p.drop 1 else p

/-- `strftime(part3, 15, ":%M %p   Cache", timestamp)` (line 820): exactly 14
characters. -/
def tmPart3 (t : Tm) : String :=
  ":" ++ pad2 t.tm_min ++ " " ++ (if t.tm_hour < 12 then "AM" else "PM") ++ "   Cache"

/-- `gen_go_file` (lines 810-840).  Bitmask: bit 0 = decimal codes, bit 1 =
append two trailing blank lines, bit 2 = prepend the header block.  The C++
writes into a caller-supplied buffer (cleared in the header branch; every
caller passes a fresh empty buffer), modelled by returning the string. -/
def gen_go_file (codes : List ICDCode) (year : String) (timestamp : Tm) (dj : String)
    (bitmask : Nat) : String :=
  let non : String := if bitmask &&& 1 = 0 then "NON" else ""
  let hdr : String :=
    if bitmask &&& 4 ≠ 0 then
      "~Format=5.S~\n" ++ tmPart1 timestamp ++ tmPart2 timestamp ++ tmPart3 timestamp ++
        "\n^" ++ non ++ "DECGBL" ++ "(\"Subscript 1\")\n" ++ dj ++
        "_PLACEHOLDER FOR YEAR " ++ year ++ "\n"
    else ""
  let withRecs :=
    codes.foldl
      (fun outp it =>
        outp ++ "^" ++ non ++ "DECGBL(\"Subscript 1\",\"" ++
          (if bitmask &&& 1 ≠ 0 then it.dec_code else it.code) ++ "\")\n" ++ it.desc ++ "\n")
      hdr
  if bitmask &&& 2 ≠ 0 then withRecs ++ "\n\n" else withRecs

/-- `gen_files` (lines 842-887): four renderings of the same collection
(bitmasks 6, 7, 4, 3), the last two concatenated into the combined buffer by
`comb.append(move(*comb2))`.  Each of the four C++ threads owns exactly one
buffer and reads only shared immutable data, so the sequential model produces
the same bytes.  The timestamp and day-index string `dj` are derived from the
wall clock (an external input, taken here as parameters).  Result:
`(dec, ndec, comb)`. -/
def gen_files (codes : List ICDCode) (year : String) (ltim : Tm) (dj : String) :
    String × String × String :=
  let ndec := gen_go_file codes year ltim dj 6
  let dec := gen_go_file codes year ltim dj 7
  let comb := gen_go_file codes year ltim dj 4
  let comb2 := gen_go_file codes year ltim dj 3
  (dec, ndec, comb ++ comb2)

/-! ### Concrete inputs used by the claim theorems -/

/-- One well-formed line: 6 ignored bytes, the 8-character code `A0010000`,
the flag `'1'` at column 14, 62 skipped filler bytes, the description
`"Foo"` with three trailing spaces, and a newline. -/
def c6data : List Char :=
  "123456A00100001".toList ++ List.replicate 62 '0' ++ "Foo   \n".toList

/-- One well-formed line whose code field holds only the 3 characters `A00`
followed by blank padding: the decimal insert must not fire because no code
character follows the 3rd. -/
def c6short : List Char :=
  "123456A00     1".toList ++ List.replicate 62 '0' ++ "Bar\n".toList

/-- A well-formed file truncated right after the flag column: 6 ignored
bytes, an 8-character code, and the flag `'1'` as the final byte. -/
def c2inp1 : List Char := "ABCDEFGHIJKLMN1".toList

/-- A flag-`'1'` line whose description region is empty: the line terminator
sits exactly at column 77. -/
def c2inp2 : List Char := "123456A00100001".toList ++ List.replicate 62 '0' ++ ['\n']

/-- A well-formed flag-`'1'` line followed by a second 7-character line that
never reaches column 14. -/
def c4data : List Char :=
  "123456A00100001".toList ++ List.replicate 62 '0' ++ "X\n".toList ++ "abcdefG\n".toList

/-- A well-formed flag-`'1'` line with code `A0000000` and a two-character
description. -/
def c5line (d1 d2 : Char) : List Char :=
  "123456A00000001".toList ++ List.replicate 62 '0' ++ [d1, d2, '\n']

/-- Two lines carrying the same code `A0000000` with descriptions `X1` and
`X2`, in that file order. -/
def c5data : List Char := c5line 'X' '1' ++ c5line 'X' '2'

/-- Another conforming implementation of the `std::sort` call: sort the
reversed input.  Equal-code runs come out in reversed file order; the result
is still a sorted permutation, so the C++ standard permits `std::sort` to
behave like this. -/
def revSort (l : List ICDCode) : List ICDCode :=
  List.insertionSort sortRel l.reverse

/-- A fixed timestamp: 2024-01-01, 14:30 local time. -/
def t0 : Tm := ⟨30, 14, 1, 0, 124⟩

/-- The ten option pairs registered by the constructor call in `main`. -/
def mainPairs : List (String × String) :=
  [("p", "path"), ("y", "year"), ("f", "zip-file"), ("i", "icd10-url"), ("z", "zip-url"),
    ("o", "order-file"), ("d", "decimal-file"), ("n", "non-decimal-file"),
    ("c", "combined-file"), ("u", "cms-url")]

/-- The parser built by `main`: the ten pairs plus the value-less `help` and
`quiet` tokens. -/
def mainParser : ArgParser :=
  ((((ArgParser.ofPairs mainPairs).getD emptyParser).add_token "?" "help" false true).1.add_token
    "q" "quiet" false true).1

/-- A registry in which the long key `alpha` is registered twice, first with
short key `a` and then again with short key `b`. -/
def pDup : ArgParser :=
  ((emptyParser.add_token "a" "alpha" true true).1.add_token "b" "alpha" true true).1

/-- Three value-bearing positional keys registered in order `k1, k2, k3`
through the short-tokens-only constructor. -/
def p3 : ArgParser := (ArgParser.ofShorts ["k1", "k2", "k3"]).getD emptyParser

/-- A registry with the single pair `(y, year)`. -/
def pGood : ArgParser := (emptyParser.add_token "y" "year" true true).1

/-- The state of `pGood` after resolving `["prog", "--year", "2024"]`. -/
def qGood : ArgParser := (pGood.parse ["prog", "--year", "2024"]).getD emptyParser

/-- A bare (non-option) argument: it does not start with `-`, `/` or a double
quote and does not end with a double quote, so the scan queues it verbatim. -/
def BareToken (t : String) : Prop :=
  t.data.headD (Char.ofNat 0) ≠ '-' ∧ t.data.headD (Char.ofNat 0) ≠ '/' ∧
    t.data.headD (Char.ofNat 0) ≠ '"' ∧ t.data.getLastD (Char.ofNat 0) ≠ '"'

/-! ### Helper lemmas -/

/-- `charsLt` is sound for the lexicographic order on character lists: a
`false` result means the first list is not below the second. -/
theorem not_lex_of_charsLt_eq_false {x y : List Char} (h : charsLt x y = false) :
    ¬List.Lex (· < ·) x y := by
  intro hlex
  induction hlex with
  | nil => simp [charsLt] at h
  | cons _ ih =>
    rw [charsLt, if_neg (lt_irrefl _), if_neg (lt_irrefl _)] at h
    exact ih h
  | rel hab =>
    rw [charsLt, if_pos hab] at h
    exact absurd h (by simp)

/-- `charsLt` is complete for the lexicographic order on character lists. -/
theorem lex_of_charsLt_eq_true : ∀ x y : List Char, charsLt x y = true → List.Lex (· < ·) x y
  | _, [], h => by simp [charsLt] at h
  | [], _ :: _, _ => List.Lex.nil
  | a :: as, b :: bs, h => by
    by_cases hab : a < b
    · exact List.Lex.rel hab
    · rw [charsLt, if_neg hab] at h
      by_cases hba : b < a
      · rw [if_pos hba] at h
        exact absurd h (by simp)
      · rw [if_neg hba] at h
        have heq : a = b := le_antisymm (not_lt.mp hba) (not_lt.mp hab)
        subst heq
        exact List.Lex.cons (lex_of_charsLt_eq_true as bs h)

/-- The comparator succeeds-by-failure exactly on the non-strict order of the
code strings: `comp_icdcode b a = false ↔ a.code ≤ b.code`. -/
theorem comp_icdcode_eq_false_iff_le (a b : ICDCode) :
    comp_icdcode b a = false ↔ a.code ≤ b.code := by
  constructor
  · intro h
    have h1 : ¬List.Lex (· < ·) b.code.data a.code.data := not_lex_of_charsLt_eq_false h
    have h2 : ¬b.code < a.code := by
      rw [String.lt_iff_toList_lt]
      exact h1
    exact not_lt.mp h2
  · intro h
    cases hc : comp_icdcode b a with
    | false => rfl
    | true =>
      have h1 : List.Lex (· < ·) b.code.data a.code.data := lex_of_charsLt_eq_true _ _ hc
      have h2 : b.code < a.code := String.lt_iff_toList_lt.mpr h1
      exact absurd h2 (not_lt.mpr h)

/-- An insertion sort on `sortRel` produces a sorted permutation, i.e. a
result `std::sort` is allowed to return. -/
theorem insertionSort_pairwise_not_comp (l : List ICDCode) :
    (List.insertionSort sortRel l).Pairwise (fun a b => comp_icdcode b a = false) := by
  haveI : IsTotal ICDCode sortRel := by
    constructor
    intro a b
    rcases le_total a.code b.code with h | h
    · exact Or.inl ((comp_icdcode_eq_false_iff_le a b).mpr h)
    · exact Or.inr ((comp_icdcode_eq_false_iff_le b a).mpr h)
  haveI : IsTrans ICDCode sortRel := by
    constructor
    intro a b c hab hbc
    have h1 := (comp_icdcode_eq_false_iff_le a b).mp hab
    have h2 := (comp_icdcode_eq_false_iff_le b c).mp hbc
    exact (comp_icdcode_eq_false_iff_le a c).mpr (le_trans h1 h2)
  exact List.sorted_insertionSort sortRel l

/-- `sortByCode` is a conforming implementation of the `std::sort` call. -/
theorem sortByCode_spec : CppSortSpec sortByCode :=
  fun l => ⟨List.perm_insertionSort sortRel l, insertionSort_pairwise_not_comp l⟩

/-- `revSort` is also a conforming implementation of the `std::sort` call. -/
theorem revSort_spec : CppSortSpec revSort :=
  fun l =>
    ⟨(List.perm_insertionSort sortRel l.reverse).trans (List.reverse_perm l),
      insertionSort_pairwise_not_comp l.reverse⟩

/-- `unordered_map::insert` preserves every existing binding. -/
theorem lookup_ainsert_of_some {β : Type} (k a : String) (v : β) (m : List (String × β)) (w : β)
    (h : List.lookup k m = some w) : List.lookup k (ainsert a v m) = some w := by
  unfold ainsert
  split
  · exact h
  · rename_i hnone
    have hka : (k == a) = false := by
      refine beq_false_of_ne ?_
      intro he
      subst he
      rw [h] at hnone
      simp at hnone
    simp only [List.lookup, hka]
    exact h

/-- The scan loop never touches the alias table. -/
theorem parseScan_keys_trans (st : ArgParser) (extras args : List String) :
    (st.parseScan extras args).1.keys_trans = st.keys_trans := by
  induction st, extras, args using ArgParser.parseScan.induct
  case case1 => rfl
  case case2 st extras s h1 h2 =>
    rw [ArgParser.parseScan.eq_2, if_pos h1, if_pos h2]
  case case3 st extras s h1 h2 v rest2 h3 ih =>
    rw [ArgParser.parseScan.eq_3, if_pos h1, if_pos h2, if_pos h3]
    exact ih
  case case4 st extras s h1 h2 v rest2 h3 ih =>
    rw [ArgParser.parseScan.eq_3, if_pos h1, if_pos h2, if_neg h3]
    exact ih
  case case5 st extras s rest h1 h2 ih =>
    cases rest with
    | nil =>
      rw [ArgParser.parseScan.eq_2, if_pos h1, if_neg h2]
      exact ih
    | cons v rest2 =>
      rw [ArgParser.parseScan.eq_3, if_pos h1, if_neg h2]
      exact ih
  case case6 st extras s rest h1 ih =>
    cases rest with
    | nil =>
      rw [ArgParser.parseScan.eq_2, if_neg h1]
      exact ih
    | cons v rest2 =>
      rw [ArgParser.parseScan.eq_3, if_neg h1]
      exact ih

/-- Resolution never touches the alias table. -/
theorem parse_keys_trans (st q : ArgParser) (args : List String)
    (h : st.parse args = some q) : q.keys_trans = st.keys_trans := by
  rcases hp : st.parseScan [] (args.drop 1) with ⟨st1, extras⟩
  have h1 : st1.keys_trans = st.keys_trans := by
    have h2 := parseScan_keys_trans st [] (args.drop 1)
    rw [hp] at h2
    exact h2
  rw [ArgParser.parse, hp] at h
  dsimp only at h
  cases hb : backfill st1.key_order extras st1.values st1.keys_found with
  | none =>
    rw [hb] at h
    exact absurd h (by simp)
  | some vf =>
    rcases vf with ⟨v, f⟩
    rw [hb] at h
    injection h with h2
    rw [← h2]
    exact h1

/-- A bare token is pushed verbatim onto the extras queue by the scan loop. -/
theorem parseScan_bare (st : ArgParser) (extras : List String) (t : String)
    (rest : List String) (h : BareToken t) :
    st.parseScan extras (t :: rest) = st.parseScan (extras ++ [t]) rest := by
  obtain ⟨h1, h2, h3, h4⟩ := h
  have hc : ¬(t.data.headD (Char.ofNat 0) = '-' ∨ t.data.headD (Char.ofNat 0) = '/') := by
    rintro (hh | hh)
    · exact h1 hh
    · exact h2 hh
  have hq : quoteStrip t = t := by
    unfold quoteStrip
    rw [if_neg h3, if_neg h4]
  cases rest with
  | nil => rw [ArgParser.parseScan.eq_2, if_neg hc, hq]
  | cons v rest2 => rw [ArgParser.parseScan.eq_3, if_neg hc, hq]

/-- The fuel of `parseLoop` is irrelevant once adequate: one more unit of
adequate fuel never changes the result, because every iteration advances `i`
by at least one while consuming one unit. -/
theorem parseLoop_succ_eq (data : List Char) :
    ∀ (fuel i col : Nat) (hipaa : Char) (code dec desc : List Char) (acc : List ICDCode),
      data.length < i + fuel → 0 < fuel →
      parseLoop data (fuel + 1) i col hipaa code dec desc acc =
        parseLoop data fuel i col hipaa code dec desc acc := by
  intro fuel
  induction fuel with
  | zero => intro i col hipaa code dec desc acc _ h2; exact absurd h2 (by omega)
  | succ m ih =>
    intro i col hipaa code dec desc acc h1 _
    rw [parseLoop, parseLoop]
    split
    · rename_i hi
      have hm : 0 < m := by omega
      cases step1 data[i] col hipaa code dec desc with
      | none => rfl
      | some s =>
        dsimp only
        cases getC data (i + s.di) with
        | none => rfl
        | some ch2 =>
          dsimp only
          split
          · exact ih _ _ _ _ _ _ _ (by omega) hm
          · exact ih _ _ _ _ _ _ _ (by omega) hm
    · rfl

/-- Any surplus of fuel beyond the `data.length + 1` used by
`parse_codes_raw` yields the same result: a `none` from the parser is a
genuine out-of-bounds access, never fuel exhaustion. -/
theorem parse_codes_raw_fuel_irrelevant (data : List Char) (extra : Nat) :
    parseLoop data (data.length + 1 + extra) 6 6 (Char.ofNat 0) [] [] [] [] =
      parse_codes_raw data := by
  induction extra with
  | zero => rfl
  | succ e ih =>
    rw [show data.length + 1 + (e + 1) = (data.length + 1 + e) + 1 from rfl]
    rw [parseLoop_succ_eq data (data.length + 1 + e) 6 6 _ _ _ _ _ (by omega) (by omega)]
    exact ih

/-! ### Claim theorems -/

set_option maxRecDepth 100000

/-- C1 counterexample: the claim says the combined buffer is the
decimal-form header-only rendering (bitmask 5) followed by the non-decimal
trailer-only rendering (bitmask 2).  Already for the empty record collection
the combined buffer differs from that: `gen_files` builds it from the
NON-decimal header-only half (bitmask 4, comment line 873) followed by the
DECIMAL trailer-only half (bitmask 3, comment line 875) — the two formats are
the other way around. -/
theorem gen_files_combined_cex :
    (gen_files [] "2024" t0 "100").2.2 ≠
      gen_go_file [] "2024" t0 "100" 5 ++ gen_go_file [] "2024" t0 "100" 2 := by decide

/-- C1 amended: for every record collection, year string, timestamp and day
index, the combined buffer is byte-for-byte the non-decimal header-only
(no-trailer) rendering immediately followed by the decimal trailer-only
(no-header) rendering, with no extra bytes at the seam. -/
theorem gen_files_combined_concat (codes : List ICDCode) (year : String) (ltim : Tm)
    (dj : String) :
    (gen_files codes year ltim dj).2.2 =
      gen_go_file codes year ltim dj 4 ++ gen_go_file codes year ltim dj 3 := rfl

/-- C1 amended, witness at a concrete input. -/
theorem gen_files_combined_concat_witness :
    (gen_files [] "2024" t0 "100").2.2 =
      gen_go_file [] "2024" t0 "100" 4 ++ gen_go_file [] "2024" t0 "100" 3 :=
  gen_files_combined_concat [] "2024" t0 "100"

/-- C2: the claim that `parse_codes` is total with no out-of-bounds access
fails on the code.  On `c2inp1` (a file truncated right after a `'1'` flag
byte) the unconditional `i += 62` jump at line 772 moves `i` past the end and
line 783 reads `data[i]` out of bounds; on `c2inp2` (a flag-`'1'` line whose
terminator sits at column 77, so the description is empty) line 777 calls
`back()` on an empty string.  Both undefined accesses are modelled by
`none`. -/
theorem parse_codes_oob :
    parse_codes c2inp1 = none ∧ parse_codes c2inp2 = none := by decide

/-- C4: the claim that a line never reaching column 14 contributes no record
fails on the code.  In `c4data` the second line `abcdefG` is 7 characters and
never reaches column 14, yet the parse yields two records: `hipaa` is never
reset at line end (line 793 recreates `code` but not the flag), so the `'1'`
of the first line is still in force and the second line is emitted as the
garbage record `{code := "G\n", dec_code := "G\n", desc := ""}`. -/
theorem short_line_stale_flag_record :
    parse_codes c4data =
      some [{ code := "A0010000", dec_code := "A00.10000", desc := "X" },
        { code := "G\n", dec_code := "G\n", desc := "" }] := by decide

/-- C6: a line with flag `'1'`, the eight code characters `A0010000` and
description `"Foo"` followed by trailing spaces parses to exactly the record
`{code := "A0010000", dec_code := "A00.10000", desc := "Foo"}`: the `'.'` is
inserted after the 3rd code character (because more characters follow) and
the trailing spaces are stripped at line end.  With a blank-padded 3-character
code (`c6short`) no `'.'` is inserted, exercising the "only when more code
characters follow" side. -/
theorem fixed_width_round_trip :
    parse_codes c6data =
      some [{ code := "A0010000", dec_code := "A00.10000", desc := "Foo" }] ∧
    parse_codes c6short =
      some [{ code := "A00", dec_code := "A00", desc := "Bar" }] := by decide

/-- C5 counterexample: the stability half of the claim fails on the code.
`std::sort` only guarantees a sorted permutation; `revSort` has that guarantee
(`CppSortSpec revSort`), yet on `c5data` — whose two records carry the equal
code `A0000000` with descriptions `X1` then `X2` in file order — it returns
the two records in reversed file order.  The code therefore does not ensure
that equal-code records keep their original relative order. -/
theorem sort_stability_cex :
    CppSortSpec revSort ∧
      parse_codes_with revSort c5data =
        some [{ code := "A0000000", dec_code := "A00.00000", desc := "X2" },
          { code := "A0000000", dec_code := "A00.00000", desc := "X1" }] :=
  ⟨revSort_spec, by decide⟩

/-- C5 amended: for every conforming implementation of the `std::sort` call
and every input blob, the record collection returned by `parse_codes` is
sorted ascending by the code string: `records[i].code ≤ records[i+1].code`
for all `i` (tie order among equal codes is unspecified). -/
theorem parse_codes_sorted (f : List ICDCode → List ICDCode) (hf : CppSortSpec f)
    (data : List Char) (records : List ICDCode)
    (h : parse_codes_with f data = some records) :
    records.Pairwise (fun a b => a.code ≤ b.code) := by
  unfold parse_codes_with at h
  cases hr : parse_codes_raw data with
  | none =>
    rw [hr] at h
    exact absurd h (by simp)
  | some raw =>
    rw [hr] at h
    injection h with h2
    rw [← h2]
    refine List.Pairwise.imp ?_ (hf raw).2
    intro a b hab
    exact (comp_icdcode_eq_false_iff_le a b).mp hab

/-- C5 amended, witness: instantiated at `sortByCode` and the concrete blob
`c5data`. -/
theorem parse_codes_sorted_witness :
    CppSortSpec sortByCode ∧
      List.Pairwise (fun a b => a.code ≤ b.code)
        [ICDCode.mk "A0000000" "A00.00000" "X1", ICDCode.mk "A0000000" "A00.00000" "X2"] :=
  ⟨sortByCode_spec,
    parse_codes_sorted sortByCode sortByCode_spec c5data _ (by decide)⟩

/-- C3 counterexample: the claim says a second `add_token` with an already
registered key silently overwrites the slot so the LAST registration's
settings are observable.  In `pDup` the long key `alpha` is registered first
with short key `a`, then re-registered with short key `b`.  Resolving
`--alpha` marks `a` found, not `b`: `unordered_map::insert` kept the FIRST
alias binding, so the first registration's settings stayed observable. -/
theorem add_token_overwrite_cex :
    (pDup.parse ["prog", "--alpha"]).map (fun q => (q.found "a", q.found "b")) =
      some (true, false) := by decide

/-- C3 amended: re-registration is never treated as an error (`add_token`
still returns `true` whenever at least one key is non-empty), but nothing is
overwritten: every binding already present in the alias table, the value
slots, or the found flags before the call is still looked up unchanged after
it — the first registration wins. -/
theorem add_token_first_registration_wins (st : ArgParser) (s l : String) (hv pos : Bool) :
    (¬(s = "" ∧ l = "") → (st.add_token s l hv pos).2 = true) ∧
    (∀ k v, List.lookup k st.keys_trans = some v →
      List.lookup k (st.add_token s l hv pos).1.keys_trans = some v) ∧
    (∀ k v, List.lookup k st.values = some v →
      List.lookup k (st.add_token s l hv pos).1.values = some v) ∧
    (∀ k b, List.lookup k st.keys_found = some b →
      List.lookup k (st.add_token s l hv pos).1.keys_found = some b) := by
  constructor
  · intro hne
    unfold ArgParser.add_token
    rw [if_neg hne]
    dsimp only
    split <;> rfl
  refine ⟨?_, ?_, ?_⟩ <;> intro k v h <;> unfold ArgParser.add_token <;> repeat' split
  all_goals
    first
      | exact h
      | exact lookup_ainsert_of_some _ _ _ _ _ h

/-- C3 amended, witness: re-registering `(b, alpha)` over `(a, alpha)` in
`pDup`'s construction returns `true` and preserves the existing alias binding
`alpha → a`. -/
theorem add_token_first_registration_wins_witness :
    (¬(("b" : String) = "" ∧ ("alpha" : String) = "") →
      ((emptyParser.add_token "a" "alpha" true true).1.add_token "b" "alpha" true true).2 =
        true) ∧
      (List.lookup "alpha" (emptyParser.add_token "a" "alpha" true true).1.keys_trans =
          some "a" →
        List.lookup "alpha" pDup.keys_trans = some "a") :=
  ⟨((add_token_first_registration_wins (emptyParser.add_token "a" "alpha" true true).1
      "b" "alpha" true true).1),
    fun h =>
      (add_token_first_registration_wins (emptyParser.add_token "a" "alpha" true true).1
        "b" "alpha" true true).2.1 "alpha" "a" h⟩

/-- C7 counterexample: `(b, alpha)` is a registered pair with both keys
non-empty in `pDup`, yet after resolving `["prog", "-b"]` we get
`found("b") = true` while `found("alpha") = false`: the alias table still maps
`alpha` to the earlier short key `a`, so the claimed symmetry fails for pairs
whose long key was previously registered under another short key. -/
theorem alias_symmetry_cex :
    (pDup.parse ["prog", "-b"]).map (fun q => (q.found "b", q.found "alpha")) =
      some (true, false) := by decide

/-- C7 amended: for a registered pair `(s, l)` whose alias entry maps `l` to
`s` and whose short key `s` is itself not an alias-table key, after any
resolution pass `found(s) = found(l)` and `get_value(s) = get_value(l)`:
both accessors translate `l` to `s` and then read the same slot. -/
theorem alias_symmetry_amended (st q : ArgParser) (args : List String) (s l : String)
    (hl : List.lookup l st.keys_trans = some s) (hs : List.lookup s st.keys_trans = none)
    (hq : st.parse args = some q) :
    q.found s = q.found l ∧ q.get_value s = q.get_value l := by
  have hkt : q.keys_trans = st.keys_trans := parse_keys_trans st q args hq
  constructor
  · unfold ArgParser.found
    rw [hkt, hl, hs]
  · unfold ArgParser.get_value
    rw [hkt, hl, hs]

/-- C7 amended, witness: the pair `(y, year)` of `pGood` after resolving
`["prog", "--year", "2024"]`. -/
theorem alias_symmetry_amended_witness :
    List.lookup "year" pGood.keys_trans = some "y" ∧
      List.lookup "y" pGood.keys_trans = none ∧
      (qGood.found "y" = qGood.found "year" ∧ qGood.get_value "y" = qGood.get_value "year") :=
  ⟨by decide, by decide,
    alias_symmetry_amended pGood qGood ["prog", "--year", "2024"] "y" "year"
      (by decide) (by decide) (by decide)⟩

/-- C8: with the registry built by `main`, `--year` followed by any further
argument `v` is marked found and consumes `v` verbatim as its value, and
`--year` as the last argument is still marked found with its value left
empty. -/
theorem option_value_consumption (v : String) :
    (mainParser.parse ["prog", "--year", v]).map
        (fun q => (q.found "year", q.get_value "year")) = some (true, some v) ∧
    (mainParser.parse ["prog", "--year"]).map
        (fun q => (q.found "year", q.get_value "year")) = some (true, some "") := by
  constructor
  · rfl
  · rfl

/-- C8, witness at `v = "2024"`. -/
theorem option_value_consumption_witness :
    (mainParser.parse ["prog", "--year", "2024"]).map
        (fun q => (q.found "year", q.get_value "year")) = some (true, some "2024") ∧
    (mainParser.parse ["prog", "--year"]).map
        (fun q => (q.found "year", q.get_value "year")) = some (true, some "") :=
  option_value_consumption "2024"

/-- C9: with value-bearing positional keys registered in order
`[k1, k2, k3]` and an argument vector of bare tokens and no option tokens,
resolution assigns the first, second and third bare token as the values of
`k1`, `k2` and `k3` respectively, marking each found; with only two bare
tokens, `k1` and `k2` receive them in order and `k3` remains unfound. -/
theorem positional_backfill (t1 t2 t3 : String)
    (h1 : BareToken t1) (h2 : BareToken t2) (h3 : BareToken t3) :
    (p3.parse ["prog", t1, t2, t3]).map
        (fun q =>
          ((q.get_value "k1", q.get_value "k2", q.get_value "k3"),
            (q.found "k1", q.found "k2", q.found "k3"))) =
      some ((some t1, some t2, some t3), (true, true, true)) ∧
    (p3.parse ["prog", t1, t2]).map
        (fun q =>
          ((q.get_value "k1", q.get_value "k2", q.get_value "k3"),
            (q.found "k1", q.found "k2", q.found "k3"))) =
      some ((some t1, some t2, some ""), (true, true, false)) := by
  have hs1 : p3.parseScan [] [t1, t2, t3] = (p3, [t1, t2, t3]) := by
    rw [parseScan_bare _ _ _ _ h1, parseScan_bare _ _ _ _ h2, parseScan_bare _ _ _ _ h3]
    rfl
  have hs2 : p3.parseScan [] [t1, t2] = (p3, [t1, t2]) := by
    rw [parseScan_bare _ _ _ _ h1, parseScan_bare _ _ _ _ h2]
    rfl
  constructor
  · rw [ArgParser.parse, show (["prog", t1, t2, t3].drop 1) = [t1, t2, t3] from rfl, hs1]
    rfl
  · rw [ArgParser.parse, show (["prog", t1, t2].drop 1) = [t1, t2] from rfl, hs2]
    rfl

/-- C9, witness at the bare tokens `x`, `y`, `z`. -/
theorem positional_backfill_witness :
    BareToken "x" ∧
      ((p3.parse ["prog", "x", "y", "z"]).map
          (fun q =>
            ((q.get_value "k1", q.get_value "k2", q.get_value "k3"),
              (q.found "k1", q.found "k2", q.found "k3"))) =
        some ((some "x", some "y", some "z"), (true, true, true)) ∧
      (p3.parse ["prog", "x", "y"]).map
          (fun q =>
            ((q.get_value "k1", q.get_value "k2", q.get_value "k3"),
              (q.found "k1", q.found "k2", q.found "k3"))) =
        some ((some "x", some "y", some ""), (true, true, false))) :=
  ⟨by unfold BareToken; decide,
    positional_backfill "x" "y" "z" (by unfold BareToken; decide)
      (by unfold BareToken; decide) (by unfold BareToken; decide)⟩

/-- C10: for every parser state and every token absent from the alias table,
the found flags and the value slots — i.e. a token never registered under
either spelling — `found` returns `false` and `get_value` returns the empty
string (in particular the `keys_found.at` throw site is not reached); both
accessors are pure functions of the state. -/
theorem accessors_total_unregistered (st : ArgParser) (t : String)
    (h1 : List.lookup t st.keys_trans = none) (h2 : List.lookup t st.keys_found = none)
    (h3 : List.lookup t st.values = none) :
    st.found t = false ∧ st.get_value t = some "" := by
  constructor
  · unfold ArgParser.found
    rw [h1]
    dsimp only
    rw [h2]
  · unfold ArgParser.get_value
    rw [h1]
    dsimp only
    rw [h3]
    rfl

/-- C10, witness: the unregistered token `bogus` against `main`'s registry. -/
theorem accessors_total_unregistered_witness :
    mainParser.found "bogus" = false ∧ mainParser.get_value "bogus" = some "" :=
  accessors_total_unregistered mainParser "bogus" (by decide) (by decide) (by decide)
